import Mathlib

/-!
Verification model of the parquet-cpp column writer
(`src/parquet/column/writer.cc`) together with the collaborating pieces the
spec describes (level encoder, value encoders, page sink, batch interface).

Buffers are modelled as lists of bytes (`List Nat`, each entry a byte value),
counters as `Nat`, and the external page sink as a trace of page events plus
a byte-cost model supplied by a `Pager` structure.
-/

/-- Byte buffers are lists of byte values. -/
abbrev Buffer := List Nat

/-- Little-endian byte serialization of `n` into exactly `k` bytes
(the value is taken modulo `256 ^ k`, as a machine store does). -/
def leBytes : Nat → Nat → List Nat
  | 0, _ => []
  | k + 1, n => n % 256 :: leBytes k (n / 256)

/-- Little-endian byte deserialization, inverse of `leBytes`. -/
def fromLEBytes : List Nat → Nat
  | [] => 0
  | b :: bs => b + 256 * fromLEBytes bs

/-- Bit width `ceil(log2(maxLevel + 1))` used by the hybrid level encoding. -/
def bitWidth (maxLevel : Nat) : Nat := Nat.log2 (2 * maxLevel + 1)

/-- Unsigned LEB128 encoding of a natural number (used for run headers). -/
def uleb128 (n : Nat) : List Nat :=
  if h : n < 128 then [n] else (n % 128 + 128) :: uleb128 (n / 128)
  termination_by n
  decreasing_by exact Nat.div_lt_self (by omega) (by omega)

/-- Modelled from the spec: the `LevelEncoder` class is not part of the
excerpted sources; per spec section 4.1 it encodes a sequence of integers in
`[0, maxLevel]` into a run-length/bit-packed hybrid, where runs of identical
values are stored as (run-length, value) pairs and zero levels need zero
width and encode to an empty body. The model emits every maximal run as a
ULEB128 header `runLength <<< 1` followed by the run value in
`ceil(bitWidth/8)` bytes. -/
def hybridEncode (maxLevel : Nat) (levels : List Nat) : Buffer :=
  if bitWidth maxLevel = 0 then []
  else
    (levels.splitBy (· == ·)).flatMap fun run =>
      uleb128 (run.length <<< 1) ++ leBytes ((bitWidth maxLevel + 7) / 8) (run.headD 0)

/-- Raw (unencoded) byte content of a level sink: the source stores each
level as a little-endian `int16`, two bytes per level. -/
def rawLevelBytes (levels : List Nat) : Buffer := levels.flatMap (leBytes 2)

/-- Modelled from the spec: the Plain value encoder (not in the excerpted
sources) serializes each value with a fixed little-endian fixed-width layout;
the model fixes the INT64 instantiation used by the tests, eight bytes per
value. -/
def plainEncode (vs : List Nat) : Buffer := vs.flatMap (leBytes 8)

/-- Modelled from the spec: the reading-side plain decoder, splitting the
buffer into eight-byte little-endian values. -/
def plainDecode (b : Buffer) : List Nat :=
  match b with
  | [] => []
  | x :: rest => fromLEBytes ((x :: rest).take 8) :: plainDecode (rest.drop 7)
  termination_by b.length
  decreasing_by simp [List.length_drop]; omega

/-- Modelled from the spec: the Dictionary encoder flushes its buffered
index codes with the hybrid bit-packing, committing to the width derived
from the final dictionary cardinality (one leading width byte, as in the
wire format). -/
def dictIndexEncode (numEntries : Nat) (idxs : List Nat) : Buffer :=
  bitWidth (numEntries - 1) :: hybridEncode (numEntries - 1) idxs

/-- Physical encodings of the source `Encoding::type` enum. -/
inductive Encoding where
  | plain
  | plainDictionary
  | rle
  | bitPacked
  | deltaBinaryPacked
  | deltaLengthByteArray
  | deltaByteArray
  | rleDictionary
  deriving DecidableEq, Repr, BEq

/-- Error kinds surfaced by the writer (thrown as `ParquetException`s in the
source). -/
inductive ParquetError where
  | rowCountMismatch
  | unsupportedEncoding
  | writeOnClosed
  deriving DecidableEq, Repr

/-- Modelled from the spec: state of the single Value Encoder instance
(`PlainEncoder` / `DictEncoder`, not in the excerpted sources). The Plain
variant accumulates values; the Dictionary variant holds the append-only
distinct-value table (first-occurrence order assigns codes) and the buffered
index codes. -/
inductive EncoderState where
  | plain (buffered : List Nat)
  | dict (table : List Nat) (indices : List Nat)
  deriving DecidableEq, Repr

/-- The two encoder variants the spec fixates at construction. -/
inductive EncoderVariant where
  | plain
  | dictionary
  deriving DecidableEq, Repr

/-- Variant of an encoder state. -/
def EncoderState.variant : EncoderState → EncoderVariant
  | .plain _ => .plain
  | .dict _ _ => .dictionary

/-- Modelled from the spec: `put` of one value; Plain appends to its
accumulation buffer, Dictionary looks the value up in the table, appending it
on first occurrence, and records its code. -/
def EncoderState.putOne : EncoderState → Nat → EncoderState
  | .plain buffered, v => .plain (buffered ++ [v])
  | .dict table indices, v =>
      match table.findIdx? (· == v) with
      | some i => .dict table (indices ++ [i])
      | none => .dict (table ++ [v]) (indices ++ [table.length])

/-- Modelled from the spec: `put` of a batch of values. -/
def EncoderState.putValues (e : EncoderState) (vs : List Nat) : EncoderState :=
  vs.foldl EncoderState.putOne e

/-- Modelled from the spec: `FlushValues` returns the encoded buffer of
everything put since the last flush and clears that buffer; the Dictionary
variant keeps its table across flushes. -/
def EncoderState.flushValues : EncoderState → Buffer × EncoderState
  | .plain buffered => (plainEncode buffered, .plain [])
  | .dict table indices => (dictIndexEncode table.length indices, .dict table [])

/-- Distinct-value table held by the encoder (empty for the Plain variant). -/
def EncoderState.dictTable : EncoderState → List Nat
  | .plain _ => []
  | .dict table _ => table

/-- Column descriptor fields the writer consumes (read-only). -/
structure ColumnDescriptor where
  max_definition_level : Nat
  max_repetition_level : Nat
  deriving DecidableEq, Repr

/-- Snapshot of one staged data page, mirroring the source's
`DataPageBuffers` struct. -/
structure DataPageBuffers where
  num_buffered_values : Nat
  num_buffered_encoded_values : Nat
  definition_levels : Buffer
  repetition_levels : Buffer
  values : Buffer
  deriving DecidableEq, Repr

/-- Observable interactions with the external page sink. -/
inductive PageEvent where
  | dictionaryPage (numEntries : Nat) (dict : Buffer) (encoding : Encoding)
  | dataPage (numValues numEncodedValues : Nat)
      (defLevels repLevels values : Buffer) (encoding : Encoding)
  | closeSignal
  deriving DecidableEq, Repr

/-- True exactly on data-page events. -/
def PageEvent.isDataPage : PageEvent → Bool
  | .dataPage _ _ _ _ _ _ => true
  | _ => false

/-- True exactly on dictionary-page events. -/
def PageEvent.isDictionaryPage : PageEvent → Bool
  | .dictionaryPage _ _ _ => true
  | _ => false

/-- Byte-cost model of the external `PageWriter`: how many bytes each page
write reports back. The writer's theorems hold for every such model. -/
structure Pager where
  dictPageBytes : Nat → Buffer → Nat
  dataPageBytes : DataPageBuffers → Nat

/-- State of one column writer, mirroring the member fields of the source
`ColumnWriter` (sinks hold raw level values; `events` is the trace of sink
interactions; `closed` is the spec's Open/Closed state bit, modelled from
the spec since the class header is not in the excerpted sources). -/
structure ColumnWriter where
  descr : ColumnDescriptor
  expected_rows : Nat
  has_dictionary : Bool
  definition_levels_sink : List Nat
  repetition_levels_sink : List Nat
  num_buffered_values : Nat
  num_buffered_encoded_values : Nat
  num_rows : Nat
  total_bytes_written : Nat
  data_page_buffers : List DataPageBuffers
  current_encoder : EncoderState
  closed : Bool
  events : List PageEvent

/-- Freshly constructed writer state (`ColumnWriter` constructor plus
`InitSinks`). -/
def initWriter (descr : ColumnDescriptor) (expected_rows : Nat)
    (has_dictionary : Bool) (enc : EncoderState) : ColumnWriter :=
  { descr := descr
    expected_rows := expected_rows
    has_dictionary := has_dictionary
    definition_levels_sink := []
    repetition_levels_sink := []
    num_buffered_values := 0
    num_buffered_encoded_values := 0
    num_rows := 0
    total_bytes_written := 0
    data_page_buffers := []
    current_encoder := enc
    closed := false
    events := [] }

/-- Constructor of `TypedColumnWriter`: selects the encoder from the
requested encoding, rejecting everything outside
{Plain, PlainDictionary, RleDictionary}; `has_dictionary` is computed as in
the base-class initializer. -/
def makeTypedColumnWriter (descr : ColumnDescriptor) (expected_rows : Nat)
    (encoding : Encoding) : Except ParquetError ColumnWriter :=
  let hd := encoding == Encoding.plainDictionary || encoding == Encoding.rleDictionary
  match encoding with
  | Encoding.plain =>
      Except.ok (initWriter descr expected_rows hd (EncoderState.plain []))
  | Encoding.plainDictionary =>
      Except.ok (initWriter descr expected_rows hd (EncoderState.dict [] []))
  | Encoding.rleDictionary =>
      Except.ok (initWriter descr expected_rows hd (EncoderState.dict [] []))
  | _ => Except.error ParquetError.unsupportedEncoding

/-- Source `ColumnWriter::RleEncodeLevels`: hybrid-encode
`num_buffered_values_` levels from the sink buffer and frame them with a
four-byte little-endian length header holding the payload byte length. -/
def ColumnWriter.RleEncodeLevels (w : ColumnWriter) (levels : List Nat)
    (maxLevel : Nat) : Buffer :=
  let payload := hybridEncode maxLevel (levels.take w.num_buffered_values)
  leBytes 4 payload.length ++ payload

/-- Page snapshot taken by `ColumnWriter::AddDataPage`: current counters,
level buffers (hybrid-encoded and framed only when the corresponding max
level is positive, else the raw sink bytes), and the flushed values. -/
def ColumnWriter.snapshotPage (w : ColumnWriter) : DataPageBuffers :=
  { num_buffered_values := w.num_buffered_values
    num_buffered_encoded_values := w.num_buffered_encoded_values
    definition_levels :=
      if w.descr.max_definition_level > 0 then
        w.RleEncodeLevels w.definition_levels_sink w.descr.max_definition_level
      else rawLevelBytes w.definition_levels_sink
    repetition_levels :=
      if w.descr.max_repetition_level > 0 then
        w.RleEncodeLevels w.repetition_levels_sink w.descr.max_repetition_level
      else rawLevelBytes w.repetition_levels_sink
    values := w.current_encoder.flushValues.1 }

/-- Source `ColumnWriter::AddDataPage`: append the snapshot to the staged
page sequence, re-initialize the sinks, and zero the buffered counters. -/
def ColumnWriter.AddDataPage (w : ColumnWriter) : ColumnWriter :=
  { w with
    data_page_buffers := w.data_page_buffers ++ [w.snapshotPage]
    definition_levels_sink := []
    repetition_levels_sink := []
    num_buffered_values := 0
    num_buffered_encoded_values := 0
    current_encoder := w.current_encoder.flushValues.2 }

/-- Value encoding tag passed to the sink for data pages (hard-coded in the
source `WriteNewPage`). -/
def dataEncoding (has_dictionary : Bool) : Encoding :=
  if has_dictionary then Encoding.plainDictionary else Encoding.plain

/-- Source `ColumnWriter::WriteNewPage`: hand one staged page to the sink
and add the returned byte count to `total_bytes_written_`. -/
def ColumnWriter.WriteNewPage (p : Pager) (w : ColumnWriter)
    (b : DataPageBuffers) : ColumnWriter :=
  { w with
    events := w.events ++
      [PageEvent.dataPage b.num_buffered_values b.num_buffered_encoded_values
        b.definition_levels b.repetition_levels b.values
        (dataEncoding w.has_dictionary)]
    total_bytes_written := w.total_bytes_written + p.dataPageBytes b }

/-- Source `TypedColumnWriter::WriteDictionaryPage`: serialize the distinct
values in code order, hand them to the sink as a dictionary page with the
current entry count, and add the returned byte count to
`total_bytes_written_`. -/
def ColumnWriter.WriteDictionaryPage (p : Pager) (w : ColumnWriter) : ColumnWriter :=
  let table := w.current_encoder.dictTable
  let buffer := plainEncode table
  { w with
    events := w.events ++
      [PageEvent.dictionaryPage table.length buffer Encoding.plainDictionary]
    total_bytes_written := w.total_bytes_written + p.dictPageBytes table.length buffer }

/-- Staged pages emitted by `Close`: everything staged so far plus the final
page cut when values remain buffered. -/
def ColumnWriter.finalPages (w : ColumnWriter) : List DataPageBuffers :=
  w.data_page_buffers ++ (if w.num_buffered_values > 0 then [w.snapshotPage] else [])

/-- Source `ColumnWriter::Close`: dictionary page first when the writer has
one, then the final page cut if values remain buffered, then every staged
page in order; afterwards the row-count check (throwing
`RowCountMismatch` before the sink is closed), the completion signal to the
sink, and the total byte count as result. The pair carries the result and
the state the writer is left in (also on failure). -/
def ColumnWriter.Close (p : Pager) (w : ColumnWriter) :
    Except ParquetError Nat × ColumnWriter :=
  let w1 := if w.has_dictionary then w.WriteDictionaryPage p else w
  let w2 := if w1.num_buffered_values > 0 then w1.AddDataPage else w1
  let w3 := w2.data_page_buffers.foldl (ColumnWriter.WriteNewPage p) w2
  if w3.num_rows ≠ w3.expected_rows then
    (Except.error ParquetError.rowCountMismatch, w3)
  else
    (Except.ok w3.total_bytes_written,
      { w3 with events := w3.events ++ [PageEvent.closeSignal], closed := true })

/-- Modelled from the spec: `TypedColumnWriter::WriteBatch` lives in the
class header, which is not among the excerpted sources. Per spec section 4.3:
absent definition levels are treated as `num_values` entries equal to the max
definition level; levels of a kind whose max level is zero are never encoded
or emitted and hence never reach the sink; the packed values (one per entry
whose definition level equals the max) are fed to the value encoder; the
buffered counters grow by `num_values` and by the packed count; the row count
grows by the number of repetition-level-0 entries, or by `num_values` when
the column has no repetition. A write on a Closed writer fails fatally. The
externally configured page-size cut policy is modelled as never firing
mid-batch (a legal configuration per the spec's open question). -/
def ColumnWriter.WriteBatch (w : ColumnWriter) (num_values : Nat)
    (def_levels rep_levels : Option (List Nat)) (values : List Nat) :
    Except ParquetError ColumnWriter :=
  if w.closed then Except.error ParquetError.writeOnClosed
  else
    let values_to_write :=
      match def_levels with
      | some ls => (ls.filter (· == w.descr.max_definition_level)).length
      | none => num_values
    let dls := def_levels.getD (List.replicate num_values w.descr.max_definition_level)
    let row_inc :=
      match rep_levels with
      | some rs => (rs.filter (· == 0)).length
      | none => num_values
    let w' :=
      { w with
        definition_levels_sink :=
          if w.descr.max_definition_level > 0 then
            w.definition_levels_sink ++ dls
          else w.definition_levels_sink
        repetition_levels_sink :=
          match rep_levels with
          | some rs =>
              if w.descr.max_repetition_level > 0 then
                w.repetition_levels_sink ++ rs
              else w.repetition_levels_sink
          | none => w.repetition_levels_sink
        current_encoder := w.current_encoder.putValues (values.take values_to_write)
        num_buffered_values := w.num_buffered_values + num_values
        num_buffered_encoded_values := w.num_buffered_encoded_values + values_to_write
        num_rows := w.num_rows + row_inc }
    Except.ok w'

/-- One recorded `WriteBatch` invocation. -/
structure BatchOp where
  num_values : Nat
  def_levels : Option (List Nat)
  rep_levels : Option (List Nat)
  values : List Nat

/-- One batch write; a failing write leaves the state as the exception
would (the guard fires before any mutation). -/
def stepBatch (w : ColumnWriter) (op : BatchOp) : ColumnWriter :=
  match w.WriteBatch op.num_values op.def_levels op.rep_levels op.values with
  | Except.ok w' => w'
  | Except.error _ => w

/-- Run a sequence of batch writes. -/
def runBatches (ops : List BatchOp) (w : ColumnWriter) : ColumnWriter :=
  ops.foldl stepBatch w

/-- Modelled from the spec: the reading-side counterpart (not in the
excerpted sources) for a required, non-repeated, Plain-encoded column
decodes the value buffers of the data pages in sink order. -/
def readBackValues (events : List PageEvent) : List Nat :=
  events.flatMap fun ev =>
    match ev with
    | PageEvent.dataPage _ _ _ _ vals _ => plainDecode vals
    | _ => []

/-- Data-page event produced for one staged page by `WriteNewPage`. -/
def dataEventOf (has_dictionary : Bool) (b : DataPageBuffers) : PageEvent :=
  PageEvent.dataPage b.num_buffered_values b.num_buffered_encoded_values
    b.definition_levels b.repetition_levels b.values (dataEncoding has_dictionary)

/-- Dictionary-page events `Close` emits (one when the writer has a
dictionary, none otherwise). -/
def ColumnWriter.dictEvents (w : ColumnWriter) : List PageEvent :=
  if w.has_dictionary then
    [PageEvent.dictionaryPage w.current_encoder.dictTable.length
      (plainEncode w.current_encoder.dictTable) Encoding.plainDictionary]
  else []

/-- Byte count the sink reports for the dictionary page `Close` emits
(zero when the writer has none). -/
def ColumnWriter.dictBytes (p : Pager) (w : ColumnWriter) : Nat :=
  if w.has_dictionary then
    p.dictPageBytes w.current_encoder.dictTable.length
      (plainEncode w.current_encoder.dictTable)
  else 0

/-- Concrete byte-cost model used to exercise the theorems on closed
inputs. -/
def samplePager : Pager :=
  { dictPageBytes := fun n b => n + b.length + 1
    dataPageBytes := fun b =>
      b.values.length + b.definition_levels.length + b.repetition_levels.length + 2 }

/-- Fresh dictionary-encoded writer over a flat required column expecting
zero rows. -/
def sampleDictWriter : ColumnWriter :=
  initWriter ⟨0, 0⟩ 0 true (EncoderState.dict [] [])

/-- Fresh plain writer expecting five rows (none ever written). -/
def sampleMismatchWriter : ColumnWriter :=
  initWriter ⟨0, 0⟩ 5 false (EncoderState.plain [])

/-- Fresh plain writer expecting zero rows. -/
def sampleEmptyWriter : ColumnWriter :=
  initWriter ⟨0, 0⟩ 0 false (EncoderState.plain [])

/-- Fresh plain writer expecting one row. -/
def sampleOneRowWriter : ColumnWriter :=
  initWriter ⟨0, 0⟩ 1 false (EncoderState.plain [])

/-- Fresh plain writer expecting two rows. -/
def sampleTwoRowWriter : ColumnWriter :=
  initWriter ⟨0, 0⟩ 2 false (EncoderState.plain [])

/-- The two-row writer after one batch of the two values 128 and 7. -/
def sampleBatchedWriter : ColumnWriter :=
  match sampleTwoRowWriter.WriteBatch 2 none none [128, 7] with
  | Except.ok w => w
  | Except.error _ => sampleTwoRowWriter

/-- A writer already in the Closed state. -/
def sampleClosedWriter : ColumnWriter :=
  { sampleEmptyWriter with closed := true }

/-!  Lemmas. -/

theorem leBytes_length (k n : Nat) : (leBytes k n).length = k := by
  induction k generalizing n with
  | zero => rfl
  | succ k ih => simp [leBytes, ih]

theorem fromLEBytes_leBytes (k n : Nat) : fromLEBytes (leBytes k n) = n % 256 ^ k := by
  induction k generalizing n with
  | zero => simp [leBytes, fromLEBytes, Nat.mod_one]
  | succ k ih =>
      simp only [leBytes, fromLEBytes, ih]
      rw [Nat.pow_succ', Nat.mod_mul]

theorem fromLEBytes_leBytes_of_lt {k n : Nat} (h : n < 256 ^ k) :
    fromLEBytes (leBytes k n) = n := by
  rw [fromLEBytes_leBytes, Nat.mod_eq_of_lt h]

theorem plainDecode_cons (x : Nat) (rest : List Nat) :
    plainDecode (x :: rest) =
      fromLEBytes ((x :: rest).take 8) :: plainDecode ((x :: rest).drop 8) := by
  rw [plainDecode]
  rfl

theorem plainDecode_leBytes_append (v : Nat) (b : Buffer) :
    plainDecode (leBytes 8 v ++ b) = (v % 2 ^ 64) :: plainDecode b := by
  have hlen : (leBytes 8 v).length = 8 := leBytes_length 8 v
  have hne : leBytes 8 v ≠ [] := by
    intro h
    rw [h] at hlen
    simp at hlen
  obtain ⟨x, rest, hx⟩ := List.exists_cons_of_ne_nil hne
  have h1 : (leBytes 8 v ++ b).take 8 = leBytes 8 v := List.take_left' hlen
  have h2 : (leBytes 8 v ++ b).drop 8 = b := List.drop_left' hlen
  have h3 : leBytes 8 v ++ b = x :: (rest ++ b) := by rw [hx]; rfl
  rw [h3, plainDecode_cons, ← h3, h1, h2, fromLEBytes_leBytes]
  norm_num

theorem plainDecode_plainEncode (vs : List Nat) (hv : ∀ v ∈ vs, v < 2 ^ 64) :
    plainDecode (plainEncode vs) = vs := by
  induction vs with
  | nil =>
      show plainDecode [] = []
      rw [plainDecode]
  | cons v vs ih =>
      have hv' : v < 2 ^ 64 := hv v (by simp)
      have : plainEncode (v :: vs) = leBytes 8 v ++ plainEncode vs := by
        simp [plainEncode]
      rw [this, plainDecode_leBytes_append, Nat.mod_eq_of_lt hv',
        ih fun u hu => hv u (by simp [hu])]

theorem variant_putOne (e : EncoderState) (v : Nat) :
    (e.putOne v).variant = e.variant := by
  cases e with
  | plain b => rfl
  | dict t i =>
      simp only [EncoderState.putOne]
      cases t.findIdx? (· == v) <;> rfl

theorem variant_putValues (e : EncoderState) (vs : List Nat) :
    (e.putValues vs).variant = e.variant := by
  induction vs generalizing e with
  | nil => rfl
  | cons v vs ih =>
      have h := ih (e.putOne v)
      simp only [EncoderState.putValues] at h ⊢
      simp only [List.foldl_cons]
      rw [h, variant_putOne]

theorem variant_flushValues (e : EncoderState) :
    e.flushValues.2.variant = e.variant := by
  cases e <;> rfl

theorem putValues_plain (b : List Nat) (vs : List Nat) :
    (EncoderState.plain b).putValues vs = EncoderState.plain (b ++ vs) := by
  induction vs generalizing b with
  | nil => simp [EncoderState.putValues]
  | cons v vs ih =>
      simp only [EncoderState.putValues, List.foldl_cons] at *
      rw [show (EncoderState.plain b).putOne v = EncoderState.plain (b ++ [v]) from rfl, ih]
      simp

theorem foldl_WriteNewPage (p : Pager) (bs : List DataPageBuffers) (w : ColumnWriter) :
    bs.foldl (ColumnWriter.WriteNewPage p) w =
      { w with
        events := w.events ++ bs.map (dataEventOf w.has_dictionary)
        total_bytes_written := w.total_bytes_written + (bs.map p.dataPageBytes).sum } := by
  induction bs generalizing w with
  | nil => simp
  | cons b bs ih =>
      simp only [List.foldl_cons, ih, List.map_cons, List.sum_cons]
      simp [ColumnWriter.WriteNewPage, dataEventOf, Nat.add_assoc]

theorem WriteDictionaryPage_descr (p : Pager) (w : ColumnWriter) :
    (w.WriteDictionaryPage p).descr = w.descr := rfl

theorem WriteDictionaryPage_expected_rows (p : Pager) (w : ColumnWriter) :
    (w.WriteDictionaryPage p).expected_rows = w.expected_rows := rfl

theorem WriteDictionaryPage_has_dictionary (p : Pager) (w : ColumnWriter) :
    (w.WriteDictionaryPage p).has_dictionary = w.has_dictionary := rfl

theorem WriteDictionaryPage_definition_levels_sink (p : Pager) (w : ColumnWriter) :
    (w.WriteDictionaryPage p).definition_levels_sink = w.definition_levels_sink := rfl

theorem WriteDictionaryPage_repetition_levels_sink (p : Pager) (w : ColumnWriter) :
    (w.WriteDictionaryPage p).repetition_levels_sink = w.repetition_levels_sink := rfl

theorem WriteDictionaryPage_num_buffered_values (p : Pager) (w : ColumnWriter) :
    (w.WriteDictionaryPage p).num_buffered_values = w.num_buffered_values := rfl

theorem WriteDictionaryPage_num_buffered_encoded_values (p : Pager) (w : ColumnWriter) :
    (w.WriteDictionaryPage p).num_buffered_encoded_values = w.num_buffered_encoded_values := rfl

theorem WriteDictionaryPage_num_rows (p : Pager) (w : ColumnWriter) :
    (w.WriteDictionaryPage p).num_rows = w.num_rows := rfl

theorem WriteDictionaryPage_data_page_buffers (p : Pager) (w : ColumnWriter) :
    (w.WriteDictionaryPage p).data_page_buffers = w.data_page_buffers := rfl

theorem WriteDictionaryPage_current_encoder (p : Pager) (w : ColumnWriter) :
    (w.WriteDictionaryPage p).current_encoder = w.current_encoder := rfl

theorem WriteDictionaryPage_closed (p : Pager) (w : ColumnWriter) :
    (w.WriteDictionaryPage p).closed = w.closed := rfl

theorem WriteDictionaryPage_events (p : Pager) (w : ColumnWriter) :
    (w.WriteDictionaryPage p).events =
      w.events ++ [PageEvent.dictionaryPage w.current_encoder.dictTable.length
        (plainEncode w.current_encoder.dictTable) Encoding.plainDictionary] := rfl

theorem WriteDictionaryPage_total_bytes_written (p : Pager) (w : ColumnWriter) :
    (w.WriteDictionaryPage p).total_bytes_written =
      w.total_bytes_written + p.dictPageBytes w.current_encoder.dictTable.length
        (plainEncode w.current_encoder.dictTable) := rfl

theorem WriteDictionaryPage_snapshotPage (p : Pager) (w : ColumnWriter) :
    (w.WriteDictionaryPage p).snapshotPage = w.snapshotPage := rfl

theorem WriteDictionaryPage_finalPages (p : Pager) (w : ColumnWriter) :
    (w.WriteDictionaryPage p).finalPages = w.finalPages := rfl

theorem AddDataPage_descr (w : ColumnWriter) : w.AddDataPage.descr = w.descr := rfl

theorem AddDataPage_expected_rows (w : ColumnWriter) :
    w.AddDataPage.expected_rows = w.expected_rows := rfl

theorem AddDataPage_has_dictionary (w : ColumnWriter) :
    w.AddDataPage.has_dictionary = w.has_dictionary := rfl

theorem AddDataPage_definition_levels_sink (w : ColumnWriter) :
    w.AddDataPage.definition_levels_sink = [] := rfl

theorem AddDataPage_repetition_levels_sink (w : ColumnWriter) :
    w.AddDataPage.repetition_levels_sink = [] := rfl

theorem AddDataPage_num_buffered_values (w : ColumnWriter) :
    w.AddDataPage.num_buffered_values = 0 := rfl

theorem AddDataPage_num_buffered_encoded_values (w : ColumnWriter) :
    w.AddDataPage.num_buffered_encoded_values = 0 := rfl

theorem AddDataPage_num_rows (w : ColumnWriter) : w.AddDataPage.num_rows = w.num_rows := rfl

theorem AddDataPage_total_bytes_written (w : ColumnWriter) :
    w.AddDataPage.total_bytes_written = w.total_bytes_written := rfl

theorem AddDataPage_data_page_buffers (w : ColumnWriter) :
    w.AddDataPage.data_page_buffers = w.data_page_buffers ++ [w.snapshotPage] := rfl

theorem AddDataPage_current_encoder (w : ColumnWriter) :
    w.AddDataPage.current_encoder = w.current_encoder.flushValues.2 := rfl

theorem AddDataPage_closed (w : ColumnWriter) : w.AddDataPage.closed = w.closed := rfl

theorem AddDataPage_events (w : ColumnWriter) : w.AddDataPage.events = w.events := rfl

theorem Close_eq (p : Pager) (w : ColumnWriter) :
    w.Close p =
      (if w.num_rows = w.expected_rows
         then Except.ok (w.total_bytes_written + w.dictBytes p +
           (w.finalPages.map p.dataPageBytes).sum)
         else Except.error ParquetError.rowCountMismatch,
       { w with
         definition_levels_sink :=
           if 0 < w.num_buffered_values then [] else w.definition_levels_sink
         repetition_levels_sink :=
           if 0 < w.num_buffered_values then [] else w.repetition_levels_sink
         num_buffered_values := 0
         num_buffered_encoded_values :=
           if 0 < w.num_buffered_values then 0 else w.num_buffered_encoded_values
         total_bytes_written := w.total_bytes_written + w.dictBytes p +
           (w.finalPages.map p.dataPageBytes).sum
         data_page_buffers := w.finalPages
         current_encoder :=
           if 0 < w.num_buffered_values then w.current_encoder.flushValues.2
           else w.current_encoder
         closed := if w.num_rows = w.expected_rows then true else w.closed
         events := w.events ++ w.dictEvents ++
           w.finalPages.map (dataEventOf w.has_dictionary) ++
           if w.num_rows = w.expected_rows then [PageEvent.closeSignal] else [] }) := by
  have hnb : ∀ h : ¬ 0 < w.num_buffered_values, w.num_buffered_values = 0 := by omega
  by_cases hd : w.has_dictionary <;> by_cases hb : 0 < w.num_buffered_values <;>
    by_cases hr : w.num_rows = w.expected_rows <;>
    simp [ColumnWriter.Close, ColumnWriter.finalPages, ColumnWriter.dictEvents,
      ColumnWriter.dictBytes, ColumnWriter.WriteNewPage, foldl_WriteNewPage,
      dataEventOf, hd, hb, hr, hnb,
      WriteDictionaryPage_descr, WriteDictionaryPage_expected_rows,
      WriteDictionaryPage_has_dictionary, WriteDictionaryPage_definition_levels_sink,
      WriteDictionaryPage_repetition_levels_sink, WriteDictionaryPage_num_buffered_values,
      WriteDictionaryPage_num_buffered_encoded_values, WriteDictionaryPage_num_rows,
      WriteDictionaryPage_data_page_buffers, WriteDictionaryPage_current_encoder,
      WriteDictionaryPage_closed, WriteDictionaryPage_events,
      WriteDictionaryPage_total_bytes_written, WriteDictionaryPage_snapshotPage,
      WriteDictionaryPage_finalPages, AddDataPage_descr, AddDataPage_expected_rows,
      AddDataPage_has_dictionary, AddDataPage_definition_levels_sink,
      AddDataPage_repetition_levels_sink, AddDataPage_num_buffered_values,
      AddDataPage_num_buffered_encoded_values, AddDataPage_num_rows,
      AddDataPage_total_bytes_written, AddDataPage_data_page_buffers,
      AddDataPage_current_encoder, AddDataPage_closed, AddDataPage_events,
      Nat.add_assoc, List.append_assoc]

/-!  Claim theorems. -/

/-- C1: for every Column Writer constructed with the Dictionary encoder
variant, `Close` hands the serialized dictionary to the external page sink
as a distinct dictionary-page write, with its returned byte count added to
`total_bytes_written`, strictly before any data page of the same column is
emitted to the sink. -/
theorem Close_dictionary_page_before_data_pages (p : Pager) (w : ColumnWriter)
    (hd : w.has_dictionary = true) (he : w.events = []) :
    (∀ j : Nat, ∀ ev : PageEvent, (w.Close p).2.events[j]? = some ev →
        ev.isDataPage = true →
        ∃ i : Nat, ∃ ev' : PageEvent, i < j ∧ (w.Close p).2.events[i]? = some ev' ∧
          ev'.isDictionaryPage = true)
    ∧ (∃ rest : Nat, (w.Close p).2.total_bytes_written =
        w.total_bytes_written +
          p.dictPageBytes w.current_encoder.dictTable.length
            (plainEncode w.current_encoder.dictTable) + rest) := by
  have hev : (w.Close p).2.events =
      PageEvent.dictionaryPage w.current_encoder.dictTable.length
        (plainEncode w.current_encoder.dictTable) Encoding.plainDictionary ::
      (w.finalPages.map (dataEventOf w.has_dictionary) ++
        if w.num_rows = w.expected_rows then [PageEvent.closeSignal] else []) := by
    rw [Close_eq]
    simp [ColumnWriter.dictEvents, hd, he]
  constructor
  · intro j ev hj hdata
    have h0 : (w.Close p).2.events[0]? =
        some (PageEvent.dictionaryPage w.current_encoder.dictTable.length
          (plainEncode w.current_encoder.dictTable) Encoding.plainDictionary) := by
      rw [hev]
      simp
    have hj0 : j ≠ 0 := by
      intro hzero
      subst hzero
      rw [h0] at hj
      cases hj
      simp [PageEvent.isDataPage] at hdata
    exact ⟨0, PageEvent.dictionaryPage w.current_encoder.dictTable.length
      (plainEncode w.current_encoder.dictTable) Encoding.plainDictionary,
      Nat.pos_of_ne_zero hj0, h0, rfl⟩
  · refine ⟨(w.finalPages.map p.dataPageBytes).sum, ?_⟩
    rw [Close_eq]
    simp [ColumnWriter.dictBytes, hd]

/-- Witness for C1 at a concrete dictionary writer and byte-cost model. -/
theorem Close_dictionary_page_before_data_pages_witness :
    sampleDictWriter.has_dictionary = true ∧
    (∀ j : Nat, ∀ ev : PageEvent,
        (sampleDictWriter.Close samplePager).2.events[j]? = some ev →
        ev.isDataPage = true →
        ∃ i : Nat, ∃ ev' : PageEvent, i < j ∧
          (sampleDictWriter.Close samplePager).2.events[i]? = some ev' ∧
          ev'.isDictionaryPage = true) :=
  ⟨rfl, (Close_dictionary_page_before_data_pages samplePager sampleDictWriter rfl rfl).1⟩

/-- C2: `Close` fails with `RowCountMismatch` exactly when the accumulated
row count differs (in either direction) from the expected row count given
at construction; the failure happens only after every staged page has been
handed to the sink, and no completion signal reaches the sink on failure. -/
theorem Close_row_count_mismatch (p : Pager) (w : ColumnWriter) (he : w.events = []) :
    ((w.Close p).1 = Except.error ParquetError.rowCountMismatch ↔
      w.num_rows ≠ w.expected_rows)
    ∧ (w.num_rows ≠ w.expected_rows →
        (w.Close p).2.events =
          w.dictEvents ++ w.finalPages.map (dataEventOf w.has_dictionary)
        ∧ PageEvent.closeSignal ∉ (w.Close p).2.events) := by
  by_cases hr : w.num_rows = w.expected_rows
  · rw [Close_eq]
    simp [hr]
  · constructor
    · rw [Close_eq]
      simp [hr]
    · intro _
      have hev : (w.Close p).2.events =
          w.dictEvents ++ w.finalPages.map (dataEventOf w.has_dictionary) := by
        rw [Close_eq]
        simp [hr, he]
      refine ⟨hev, ?_⟩
      rw [hev]
      intro hmem
      rcases List.mem_append.mp hmem with hmem | hmem
      · unfold ColumnWriter.dictEvents at hmem
        by_cases hdict : w.has_dictionary <;> simp [hdict] at hmem
      · rcases List.mem_map.mp hmem with ⟨b, _, hb⟩
        simp [dataEventOf] at hb

/-- Witness for C2 at a concrete writer whose row count cannot match. -/
theorem Close_row_count_mismatch_witness :
    ((sampleMismatchWriter.Close samplePager).1 =
        Except.error ParquetError.rowCountMismatch ↔
      sampleMismatchWriter.num_rows ≠ sampleMismatchWriter.expected_rows) ∧
    (sampleMismatchWriter.Close samplePager).1 =
      Except.error ParquetError.rowCountMismatch :=
  ⟨(Close_row_count_mismatch samplePager sampleMismatchWriter rfl).1,
    (Close_row_count_mismatch samplePager sampleMismatchWriter rfl).1.mpr (by decide)⟩

/-- C3: on a writer in the Open state with matching row count, `Close` cuts
exactly one final page when values remain buffered (none otherwise), hands
every staged page to the sink in staging order, and returns a total equal
to the sum of the byte counts the sink reported for every page written,
the dictionary page included. -/
theorem Close_success_emits_all (p : Pager) (w : ColumnWriter) (he : w.events = [])
    (hb0 : w.total_bytes_written = 0) (hr : w.num_rows = w.expected_rows) :
    (w.Close p).1 =
      Except.ok (w.dictBytes p + (w.finalPages.map p.dataPageBytes).sum)
    ∧ (w.Close p).2.data_page_buffers =
        w.data_page_buffers ++
          (if 0 < w.num_buffered_values then [w.snapshotPage] else [])
    ∧ (w.Close p).2.events =
        w.dictEvents ++ w.finalPages.map (dataEventOf w.has_dictionary) ++
          [PageEvent.closeSignal]
    ∧ (w.Close p).1 = Except.ok (w.Close p).2.total_bytes_written := by
  rw [Close_eq]
  simp [hr, hb0, he, ColumnWriter.finalPages]

/-- Witness for C3 at a concrete empty writer. -/
theorem Close_success_emits_all_witness :
    (sampleEmptyWriter.Close samplePager).1 =
      Except.ok (sampleEmptyWriter.dictBytes samplePager +
        (sampleEmptyWriter.finalPages.map samplePager.dataPageBytes).sum) ∧
    (sampleEmptyWriter.Close samplePager).2.events =
      sampleEmptyWriter.dictEvents ++
        sampleEmptyWriter.finalPages.map (dataEventOf sampleEmptyWriter.has_dictionary) ++
        [PageEvent.closeSignal] :=
  ⟨(Close_success_emits_all samplePager sampleEmptyWriter rfl rfl rfl).1,
    (Close_success_emits_all samplePager sampleEmptyWriter rfl rfl rfl).2.2.1⟩

/-- C4: every encoded level buffer produced at a page cut carries a
four-byte little-endian length header whose value is exactly the byte
length of the hybrid-encoded payload that follows it, the whole buffer
being payload length plus four; the staged page's level buffers are
exactly such framed buffers whenever the corresponding max level is
positive. -/
theorem RleEncodeLevels_framing (w : ColumnWriter) (levels : List Nat) (maxLevel : Nat)
    (h : (hybridEncode maxLevel (levels.take w.num_buffered_values)).length < 2 ^ 32) :
    fromLEBytes ((w.RleEncodeLevels levels maxLevel).take 4) =
      ((w.RleEncodeLevels levels maxLevel).drop 4).length
    ∧ (w.RleEncodeLevels levels maxLevel).length =
      ((w.RleEncodeLevels levels maxLevel).drop 4).length + 4
    ∧ (0 < w.descr.max_definition_level →
        w.snapshotPage.definition_levels =
          w.RleEncodeLevels w.definition_levels_sink w.descr.max_definition_level)
    ∧ (0 < w.descr.max_repetition_level →
        w.snapshotPage.repetition_levels =
          w.RleEncodeLevels w.repetition_levels_sink w.descr.max_repetition_level) := by
  have hlen : (leBytes 4 (hybridEncode maxLevel
      (levels.take w.num_buffered_values)).length).length = 4 := leBytes_length 4 _
  have htake : (w.RleEncodeLevels levels maxLevel).take 4 =
      leBytes 4 (hybridEncode maxLevel (levels.take w.num_buffered_values)).length := by
    unfold ColumnWriter.RleEncodeLevels
    exact List.take_left' hlen
  have hdrop : (w.RleEncodeLevels levels maxLevel).drop 4 =
      hybridEncode maxLevel (levels.take w.num_buffered_values) := by
    unfold ColumnWriter.RleEncodeLevels
    exact List.drop_left' hlen
  have hbound : (hybridEncode maxLevel (levels.take w.num_buffered_values)).length <
      256 ^ 4 := by
    norm_num
    omega
  refine ⟨?_, ?_, ?_, ?_⟩
  · rw [htake, hdrop, fromLEBytes_leBytes_of_lt hbound]
  · rw [hdrop]
    unfold ColumnWriter.RleEncodeLevels
    simp [hlen]
    omega
  · intro hpos
    simp [ColumnWriter.snapshotPage, hpos]
  · intro hpos
    simp [ColumnWriter.snapshotPage, hpos]

/-- Witness for C4 at a concrete writer and level vector. -/
theorem RleEncodeLevels_framing_witness :
    (hybridEncode 1 ([1, 0, 1].take sampleEmptyWriter.num_buffered_values)).length <
      2 ^ 32 ∧
    fromLEBytes ((sampleEmptyWriter.RleEncodeLevels [1, 0, 1] 1).take 4) =
      ((sampleEmptyWriter.RleEncodeLevels [1, 0, 1] 1).drop 4).length := by
  have hb : sampleEmptyWriter.num_buffered_values = 0 := rfl
  have h : (hybridEncode 1 ([1, 0, 1].take sampleEmptyWriter.num_buffered_values)).length <
      2 ^ 32 := by
    rw [hb]
    simp [hybridEncode]
  exact ⟨h, (RleEncodeLevels_framing sampleEmptyWriter [1, 0, 1] 1 h).1⟩

/-- C6: a page cut appends exactly one staged page snapshotting the current
buffered counters, framed level buffers and flushed values to the end of
the staged sequence, then resets both level sinks and both buffered
counters, leaving the row count, the byte total and every previously staged
page unchanged. -/
theorem AddDataPage_frame_effect (w : ColumnWriter) :
    w.AddDataPage.data_page_buffers = w.data_page_buffers ++ [w.snapshotPage]
    ∧ w.snapshotPage.num_buffered_values = w.num_buffered_values
    ∧ w.snapshotPage.num_buffered_encoded_values = w.num_buffered_encoded_values
    ∧ w.snapshotPage.values = w.current_encoder.flushValues.1
    ∧ w.snapshotPage.definition_levels =
        (if 0 < w.descr.max_definition_level then
          w.RleEncodeLevels w.definition_levels_sink w.descr.max_definition_level
        else rawLevelBytes w.definition_levels_sink)
    ∧ w.snapshotPage.repetition_levels =
        (if 0 < w.descr.max_repetition_level then
          w.RleEncodeLevels w.repetition_levels_sink w.descr.max_repetition_level
        else rawLevelBytes w.repetition_levels_sink)
    ∧ w.AddDataPage.definition_levels_sink = []
    ∧ w.AddDataPage.repetition_levels_sink = []
    ∧ w.AddDataPage.num_buffered_values = 0
    ∧ w.AddDataPage.num_buffered_encoded_values = 0
    ∧ w.AddDataPage.num_rows = w.num_rows
    ∧ w.AddDataPage.total_bytes_written = w.total_bytes_written
    ∧ w.AddDataPage.data_page_buffers.take w.data_page_buffers.length =
        w.data_page_buffers := by
  refine ⟨rfl, rfl, rfl, rfl, rfl, rfl, rfl, rfl, rfl, rfl, rfl, rfl, ?_⟩
  rw [AddDataPage_data_page_buffers]
  exact List.take_left w.data_page_buffers [w.snapshotPage]

/-- C7: the writer is a two-state machine: a successful `Close` moves it
from Open to the terminal Closed state, any further `WriteBatch` on a
Closed writer fails fatally, and `WriteBatch` on an Open writer succeeds
and leaves it Open (so only `Close` terminates the lifetime). -/
theorem writer_two_state_machine (p : Pager) (w : ColumnWriter) (num_values : Nat)
    (dl rl : Option (List Nat)) (vals : List Nat) :
    (∀ n : Nat, (w.Close p).1 = Except.ok n → (w.Close p).2.closed = true)
    ∧ (w.closed = true →
        w.WriteBatch num_values dl rl vals = Except.error ParquetError.writeOnClosed)
    ∧ (w.closed = false →
        ∃ w' : ColumnWriter, w.WriteBatch num_values dl rl vals = Except.ok w' ∧
          w'.closed = false) := by
  refine ⟨?_, ?_, ?_⟩
  · intro n hok
    rw [Close_eq] at hok ⊢
    by_cases hr : w.num_rows = w.expected_rows
    · simp [hr]
    · simp [hr] at hok
  · intro hc
    unfold ColumnWriter.WriteBatch
    simp [hc]
  · intro hc
    unfold ColumnWriter.WriteBatch
    simp only [hc, Bool.false_eq_true, if_false]
    exact ⟨_, rfl, rfl⟩

/-- Witness for C7 at a concrete Closed writer. -/
theorem writer_two_state_machine_witness :
    sampleClosedWriter.closed = true ∧
    sampleClosedWriter.WriteBatch 1 none none [5] =
      Except.error ParquetError.writeOnClosed :=
  ⟨rfl, (writer_two_state_machine samplePager sampleClosedWriter 1 none none [5]).2.1 rfl⟩

/-- C8: constructing a typed writer with an encoding outside
{Plain, PlainDictionary, RleDictionary} fails fatally with
`UnsupportedEncoding`; for a supported encoding the encoder variant (Plain
vs Dictionary) is fixed at construction and preserved by every operation of
the writer's lifetime. -/
theorem make_encoding_contract (descr : ColumnDescriptor) (expected_rows : Nat)
    (e : Encoding) (p : Pager) (num_values : Nat) (dl rl : Option (List Nat))
    (vals : List Nat) :
    (makeTypedColumnWriter descr expected_rows e =
        Except.error ParquetError.unsupportedEncoding ↔
      (e ≠ Encoding.plain ∧ e ≠ Encoding.plainDictionary ∧ e ≠ Encoding.rleDictionary))
    ∧ (∀ w : ColumnWriter, makeTypedColumnWriter descr expected_rows e = Except.ok w →
        w.current_encoder.variant =
          (if e = Encoding.plain then EncoderVariant.plain else EncoderVariant.dictionary))
    ∧ (∀ w : ColumnWriter,
        w.AddDataPage.current_encoder.variant = w.current_encoder.variant)
    ∧ (∀ w w' : ColumnWriter, w.WriteBatch num_values dl rl vals = Except.ok w' →
        w'.current_encoder.variant = w.current_encoder.variant)
    ∧ (∀ w : ColumnWriter,
        (w.Close p).2.current_encoder.variant = w.current_encoder.variant) := by
  refine ⟨?_, ?_, ?_, ?_, ?_⟩
  · cases e <;> simp [makeTypedColumnWriter]
  · intro w hw
    cases e <;> simp [makeTypedColumnWriter] at hw <;> subst hw <;>
      simp [initWriter, EncoderState.variant]
  · intro w
    rw [AddDataPage_current_encoder, variant_flushValues]
  · intro w w' hw
    unfold ColumnWriter.WriteBatch at hw
    by_cases hc : w.closed
    · simp [hc] at hw
    · simp only [hc, Bool.false_eq_true, if_false, Except.ok.injEq] at hw
      rw [← hw]
      exact variant_putValues _ _
  · intro w
    rw [Close_eq]
    by_cases hb : 0 < w.num_buffered_values <;> simp [hb, variant_flushValues]

/-- Witness for C8 at the unsupported RLE encoding. -/
theorem make_encoding_contract_witness :
    (Encoding.rle ≠ Encoding.plain ∧ Encoding.rle ≠ Encoding.plainDictionary ∧
      Encoding.rle ≠ Encoding.rleDictionary) ∧
    makeTypedColumnWriter ⟨0, 0⟩ 0 Encoding.rle =
      Except.error ParquetError.unsupportedEncoding :=
  ⟨by decide,
    (make_encoding_contract ⟨0, 0⟩ 0 Encoding.rle samplePager 0 none none []).1.mpr
      (by decide)⟩

/-- C10: on a writer constructed with a dictionary encoding, `Close` writes
the dictionary page to the sink first, before any check or other write, even
when no batch was ever written and no data page exists, with the entry
count equal to the dictionary's cardinality at close time. -/
theorem Close_dictionary_page_unconditional (p : Pager) (w : ColumnWriter)
    (hd : w.has_dictionary = true) (he : w.events = []) :
    (w.Close p).2.events.head? =
      some (PageEvent.dictionaryPage w.current_encoder.dictTable.length
        (plainEncode w.current_encoder.dictTable) Encoding.plainDictionary) := by
  rw [Close_eq]
  simp [ColumnWriter.dictEvents, hd, he]

/-- Witness for C10 at a fresh dictionary writer on which `WriteBatch` was
never called: the dictionary page still comes first and carries zero
entries. -/
theorem Close_dictionary_page_unconditional_witness :
    sampleDictWriter.has_dictionary = true ∧
    (sampleDictWriter.Close samplePager).2.events.head? =
      some (PageEvent.dictionaryPage 0 (plainEncode []) Encoding.plainDictionary) :=
  ⟨rfl, Close_dictionary_page_unconditional samplePager sampleDictWriter rfl rfl⟩

theorem stepBatch_zero_levels (w : ColumnWriter) (op : BatchOp)
    (h0 : w.descr.max_definition_level = 0) (h1 : w.descr.max_repetition_level = 0) :
    (stepBatch w op).descr = w.descr ∧
    (stepBatch w op).definition_levels_sink = w.definition_levels_sink ∧
    (stepBatch w op).repetition_levels_sink = w.repetition_levels_sink ∧
    (stepBatch w op).events = w.events ∧
    (stepBatch w op).data_page_buffers = w.data_page_buffers := by
  unfold stepBatch ColumnWriter.WriteBatch
  by_cases hc : w.closed
  · simp [hc]
  · simp only [hc, Bool.false_eq_true, if_false]
    refine ⟨by trivial, ?_, ?_, by trivial, by trivial⟩
    · simp [h0]
    · cases op.rep_levels with
      | none => rfl
      | some rs => simp [h1]

theorem runBatches_zero_levels (ops : List BatchOp) (w : ColumnWriter)
    (h0 : w.descr.max_definition_level = 0) (h1 : w.descr.max_repetition_level = 0) :
    (runBatches ops w).descr = w.descr ∧
    (runBatches ops w).definition_levels_sink = w.definition_levels_sink ∧
    (runBatches ops w).repetition_levels_sink = w.repetition_levels_sink ∧
    (runBatches ops w).events = w.events ∧
    (runBatches ops w).data_page_buffers = w.data_page_buffers := by
  induction ops generalizing w with
  | nil => exact ⟨rfl, rfl, rfl, rfl, rfl⟩
  | cons op ops ih =>
      obtain ⟨s1, s2, s3, s4, s5⟩ := stepBatch_zero_levels w op h0 h1
      have hrun : runBatches (op :: ops) w = runBatches ops (stepBatch w op) := rfl
      obtain ⟨i1, i2, i3, i4, i5⟩ :=
        ih (stepBatch w op) (by rw [s1]; exact h0) (by rw [s1]; exact h1)
      rw [hrun]
      exact ⟨by rw [i1, s1], by rw [i2, s2], by rw [i3, s3], by rw [i4, s4],
        by rw [i5, s5]⟩

/-- C5: on a column whose max definition and max repetition levels are both
zero, no level buffer (and hence no four-byte length header) appears in any
data page the sink observes: the level arrays are never run through the
level encoder and contribute no framed buffer. -/
theorem zero_max_level_no_level_buffers (p : Pager) (descr : ColumnDescriptor)
    (expected_rows : Nat) (enc : Encoding) (ops : List BatchOp) (w0 : ColumnWriter)
    (h0 : descr.max_definition_level = 0) (h1 : descr.max_repetition_level = 0)
    (hw : makeTypedColumnWriter descr expected_rows enc = Except.ok w0) :
    ∀ nv ne : Nat, ∀ dl rl vals : Buffer, ∀ etag : Encoding,
      PageEvent.dataPage nv ne dl rl vals etag ∈
        ((runBatches ops w0).Close p).2.events →
      dl = [] ∧ rl = [] := by
  have hw0 : w0.descr = descr ∧ w0.definition_levels_sink = [] ∧
      w0.repetition_levels_sink = [] ∧ w0.events = [] ∧
      w0.data_page_buffers = [] := by
    cases enc <;> simp [makeTypedColumnWriter] at hw <;> subst hw <;>
      exact ⟨rfl, rfl, rfl, rfl, rfl⟩
  obtain ⟨hd0, hs1, hs2, hev0, hpg0⟩ := hw0
  obtain ⟨hWd, hWs1, hWs2, hWev, hWpg⟩ :=
    runBatches_zero_levels ops w0 (by rw [hd0]; exact h0) (by rw [hd0]; exact h1)
  have hWd0 : (runBatches ops w0).descr.max_definition_level = 0 := by
    rw [hWd, hd0]; exact h0
  have hWd1 : (runBatches ops w0).descr.max_repetition_level = 0 := by
    rw [hWd, hd0]; exact h1
  have hsnap1 : (runBatches ops w0).snapshotPage.definition_levels = [] := by
    simp [ColumnWriter.snapshotPage, hWd0, hWs1, hs1, rawLevelBytes]
  have hsnap2 : (runBatches ops w0).snapshotPage.repetition_levels = [] := by
    simp [ColumnWriter.snapshotPage, hWd1, hWs2, hs2, rawLevelBytes]
  have hevents : ((runBatches ops w0).Close p).2.events =
      (runBatches ops w0).dictEvents ++
        (runBatches ops w0).finalPages.map
          (dataEventOf (runBatches ops w0).has_dictionary) ++
        (if (runBatches ops w0).num_rows = (runBatches ops w0).expected_rows
          then [PageEvent.closeSignal] else []) := by
    rw [Close_eq]
    simp [hWev, hev0, List.append_assoc]
  intro nv ne dl rl vals etag hmem
  rw [hevents] at hmem
  rcases List.mem_append.mp hmem with hmem | hmem
  · rcases List.mem_append.mp hmem with hmem | hmem
    · unfold ColumnWriter.dictEvents at hmem
      by_cases hdict : (runBatches ops w0).has_dictionary <;> simp [hdict] at hmem
    · rcases List.mem_map.mp hmem with ⟨b, hb, heq⟩
      have hbd : b.definition_levels = [] ∧ b.repetition_levels = [] := by
        unfold ColumnWriter.finalPages at hb
        rcases List.mem_append.mp hb with hb | hb
        · rw [hWpg, hpg0] at hb
          cases hb
        · by_cases hbuf : 0 < (runBatches ops w0).num_buffered_values
          · simp only [hbuf, if_true, List.mem_singleton] at hb
            rw [hb]
            exact ⟨hsnap1, hsnap2⟩
          · simp [hbuf] at hb
      unfold dataEventOf at heq
      injection heq with e1 e2 e3 e4 e5 e6
      exact ⟨e3 ▸ hbd.1, e4 ▸ hbd.2⟩
  · by_cases hr : (runBatches ops w0).num_rows = (runBatches ops w0).expected_rows <;>
      simp [hr] at hmem

/-- Witness for C5 at a concrete flat column, one batch and the Plain
encoding. -/
theorem zero_max_level_no_level_buffers_witness :
    (⟨0, 0⟩ : ColumnDescriptor).max_definition_level = 0 ∧
    makeTypedColumnWriter ⟨0, 0⟩ 1 Encoding.plain = Except.ok sampleOneRowWriter ∧
    (∀ nv ne : Nat, ∀ dl rl vals : Buffer, ∀ etag : Encoding,
      PageEvent.dataPage nv ne dl rl vals etag ∈
        ((runBatches [⟨1, none, none, [42]⟩] sampleOneRowWriter).Close
          samplePager).2.events →
      dl = [] ∧ rl = []) :=
  ⟨rfl, rfl,
    zero_max_level_no_level_buffers samplePager ⟨0, 0⟩ 1 Encoding.plain
      [⟨1, none, none, [42]⟩] sampleOneRowWriter rfl rfl rfl⟩

/-- C9: writing a batch of N values to a required, non-repeated column with
no definition or repetition levels and then closing yields a successful
close, a row count of exactly N, and reading the emitted pages back yields
exactly the N original values in original order. -/
theorem required_non_repeated_round_trip (p : Pager) (vs : List Nat)
    (hv : ∀ v ∈ vs, v < 2 ^ 64) (w0 w1 : ColumnWriter)
    (h0 : makeTypedColumnWriter ⟨0, 0⟩ vs.length Encoding.plain = Except.ok w0)
    (h1 : w0.WriteBatch vs.length none none vs = Except.ok w1) :
    w1.num_rows = vs.length
    ∧ (∃ n : Nat, (w1.Close p).1 = Except.ok n)
    ∧ readBackValues ((w1.Close p).2.events) = vs := by
  have hmk : makeTypedColumnWriter ⟨0, 0⟩ vs.length Encoding.plain =
      Except.ok (initWriter ⟨0, 0⟩ vs.length false (EncoderState.plain [])) := rfl
  rw [hmk] at h0
  have hw0 : initWriter ⟨0, 0⟩ vs.length false (EncoderState.plain []) = w0 :=
    Except.ok.inj h0
  subst hw0
  have hstep : (initWriter ⟨0, 0⟩ vs.length false (EncoderState.plain [])).WriteBatch
      vs.length none none vs =
      Except.ok
        { descr := ⟨0, 0⟩
          expected_rows := vs.length
          has_dictionary := false
          definition_levels_sink := []
          repetition_levels_sink := []
          num_buffered_values := 0 + vs.length
          num_buffered_encoded_values := 0 + vs.length
          num_rows := 0 + vs.length
          total_bytes_written := 0
          data_page_buffers := []
          current_encoder := (EncoderState.plain []).putValues (vs.take vs.length)
          closed := false
          events := [] } := rfl
  rw [hstep] at h1
  have hw1 := Except.ok.inj h1
  have henc : (EncoderState.plain []).putValues (vs.take vs.length) =
      EncoderState.plain vs := by
    rw [List.take_length, putValues_plain, List.nil_append]
  have f1 : w1.num_rows = 0 + vs.length := by rw [← hw1]
  have f2 : w1.expected_rows = vs.length := by rw [← hw1]
  have f3 : w1.has_dictionary = false := by rw [← hw1]
  have f4 : w1.events = [] := by rw [← hw1]
  have f6 : w1.data_page_buffers = [] := by rw [← hw1]
  have f7 : w1.num_buffered_values = 0 + vs.length := by rw [← hw1]
  have f8 : w1.current_encoder = EncoderState.plain vs := by
    rw [← hw1]
    exact henc
  have hr : w1.num_rows = w1.expected_rows := by
    rw [f1, f2]
    exact Nat.zero_add _
  refine ⟨by rw [f1]; exact Nat.zero_add _, ?_, ?_⟩
  · exact ⟨_, by rw [Close_eq, if_pos hr]⟩
  · have hev : (w1.Close p).2.events =
        w1.finalPages.map (dataEventOf false) ++ [PageEvent.closeSignal] := by
      rw [Close_eq]
      simp [f4, f3, hr, ColumnWriter.dictEvents]
    have hfp : w1.finalPages = if 0 < vs.length then [w1.snapshotPage] else [] := by
      unfold ColumnWriter.finalPages
      rw [f6, f7]
      simp
    have hsnapv : w1.snapshotPage.values = plainEncode vs := by
      unfold ColumnWriter.snapshotPage
      rw [f8]
      rfl
    rw [hev]
    cases vs with
    | nil =>
        simp at hfp
        rw [hfp]
        simp [readBackValues]
    | cons v vt =>
        have hpos : 0 < (v :: vt).length := by simp
        rw [hfp, if_pos hpos]
        simp only [List.map_cons, List.map_nil, List.singleton_append,
          readBackValues, dataEventOf, List.flatMap_cons, List.flatMap_nil,
          List.append_nil]
        rw [hsnapv]
        exact plainDecode_plainEncode (v :: vt) hv

/-- Witness for C9 at the concrete two-value batch [128, 7]. -/
theorem required_non_repeated_round_trip_witness :
    sampleBatchedWriter.num_rows = ([128, 7] : List Nat).length ∧
    readBackValues ((sampleBatchedWriter.Close samplePager).2.events) = [128, 7] :=
  have h := required_non_repeated_round_trip samplePager [128, 7] (by decide)
    sampleTwoRowWriter sampleBatchedWriter rfl rfl
  ⟨h.1, h.2.2⟩
